import Mathlib

/-!
Shallow embedding of `src/main.rs` of the onekp repository: a record store
correlating a TSV metadata table with an HTML directory listing, a
rate-limited retrying HTTP client, an on-disk response cache with a
staleness threshold, and a sequential fetch orchestrator.

Machine integers are modelled as `Nat` (durations and timestamps count
whole seconds, matching the source's `Duration::as_secs` truncation and
`Duration::from_secs` construction).  Fallible operations return `Except`.
The network and the filesystem are passed in explicitly as values or
oracle functions.
-/

/-- Embeds `enum SequenceType` (main.rs lines 18-23). -/
inductive SequenceType where
  | nucleotide
  | protein
  | both
deriving DecidableEq, Repr

/-- Embeds `SequenceType::to_filenames` (main.rs lines 26-34). -/
def SequenceType.to_filenames : SequenceType → List String
  | .nucleotide => ["nucleotides.fa.gz"]
  | .protein => ["protein.fa.gz"]
  | .both => ["nucleotides.fa.gz", "protein.fa.gz"]

/-- Embeds `struct OneKpRecord` (main.rs lines 37-46).  The Rust field
`prefix` is named `pfx` here because `prefix` is a Lean keyword. -/
structure OneKpRecord where
  id : String
  clade : String
  order : String
  family : String
  species : String
  tissue_type : String
  pfx : String
deriving DecidableEq, Repr

/-- Embeds `OneKpRecord::to_filename` (main.rs lines 49-51):
`format!("{}-{}", self.prefix, filename)`. -/
def OneKpRecord.to_filename (r : OneKpRecord) (filename : String) : String :=
  r.pfx ++ "-" ++ filename

/-- The base URL hard-coded in `OneKpRecord::to_gigadb_url`. -/
def gigadbBase : String :=
  "https://ftp.cngb.org/pub/gigadb/pub/10.5524/100001_101000/100627/assemblies/"

/-- Embeds `OneKpRecord::to_gigadb_url` (main.rs lines 52-55):
`format!("https://.../assemblies/{}/{}-translated-{}", prefix, id, filename)`. -/
def OneKpRecord.to_gigadb_url (r : OneKpRecord) (filename : String) : String :=
  gigadbBase ++ r.pfx ++ "/" ++ r.id ++ "-translated-" ++ filename

/-- Embeds Rust `str::starts_with` as used in `push_record`
(`l.starts_with(&id)`): byte-prefix comparison, modelled on the character
list (exact, case-sensitive). -/
def strStartsWith (s pre : String) : Bool :=
  pre.toList.isPrefixOf s.toList

/-- Embeds `n.trim_end_matches('/')` from `OneKp::new` (main.rs line 80):
removes every trailing slash. -/
def trimTrailingSlash (s : String) : String :=
  String.mk ((s.toList.reverse.dropWhile (fun c => c = '/')).reverse)

/-- Embeds `struct OneKp` (main.rs lines 58-62): the directory-listing link
index and the accumulated records. -/
structure OneKp where
  links : List String
  records : List OneKpRecord
deriving Repr

/-- Embeds `OneKp::new` (main.rs lines 75-87), starting from the hyperlink
targets already extracted from the HTML document (the HTML tokenizer is an
external collaborator per the spec): each target has its trailing slashes
stripped, and the record list starts empty. -/
def OneKp.new (hrefs : List String) : OneKp :=
  { links := hrefs.map trimTrailingSlash, records := [] }

/-- Embeds `enum OneKpKey` (main.rs lines 64-72). -/
inductive OneKpKey where
  | id
  | clade
  | order
  | family
  | species
  | tissueType
deriving DecidableEq, Repr

/-- Embeds `OneKp::push_record` (main.rs lines 89-110), with the `&mut self`
receiver made explicit: the result pairs the post-state with the outcome.
Rust indexes `attrs[0] .. attrs[5]`, which panics on a list shorter than 6;
the panic is modelled as an error that leaves the store unchanged (a Rust
panic aborts before any push happens). -/
def OneKp.push_record (o : OneKp) (attrs : List String) :
    OneKp × Except String Unit :=
  match attrs with
  | a0 :: a1 :: a2 :: a3 :: a4 :: a5 :: _ =>
    match o.links.find? (fun l => strStartsWith l a0) with
    | none => (o, .error (a0 ++ " dirname is not found"))
    | some p =>
      ({ o with records := o.records ++
          [{ id := a0, clade := a1, order := a2, family := a3,
             species := a4, tissue_type := a5, pfx := p }] }, .ok ())
  | _ => (o, .error "panic: index out of bounds")

/-- Embeds `OneKp::filter` (main.rs lines 112-151): one `Vec::contains`
filter branch per key, preserving store order. -/
def OneKp.filter (o : OneKp) (key : OneKpKey) (values : List String) :
    List OneKpRecord :=
  match key with
  | .id => o.records.filter (fun r => values.contains r.id)
  | .clade => o.records.filter (fun r => values.contains r.clade)
  | .order => o.records.filter (fun r => values.contains r.order)
  | .family => o.records.filter (fun r => values.contains r.family)
  | .species => o.records.filter (fun r => values.contains r.species)
  | .tissueType => o.records.filter (fun r => values.contains r.tissue_type)

/-- Field selection by key, used to state properties of `OneKp.filter`
uniformly over the six branches (spec §4.3 `filter(field_key, values)`). -/
def OneKpKey.field : OneKpKey → OneKpRecord → String
  | .id, r => r.id
  | .clade, r => r.clade
  | .order, r => r.order
  | .family, r => r.family
  | .species, r => r.species
  | .tissueType, r => r.tissue_type

/-- Embeds the TSV ingestion padding loop (main.rs lines 327-330):
`while attrs.len() < 6 { attrs.push("No data"); }`. -/
def padFields (attrs : List String) : List String :=
  if attrs.length < 6 then padFields (attrs ++ ["No data"]) else attrs
termination_by 6 - attrs.length
decreasing_by simp_all; omega

/-- Embeds `struct Client` (main.rs lines 154-159).  `Instant` values are
whole seconds (`Nat`); the source only ever compares instants through
`duration_since(..).as_secs()`. -/
structure Client where
  interval_time : Nat
  max_retry : Nat
  last_fetch_time : Nat
deriving Repr

/-- Embeds `Client::new` (main.rs lines 162-168): `last_fetch_time` is set
to `Instant::now()`, the construction instant `now`. -/
def Client.new (interval_time : Nat) (max_retry : Nat) (now : Nat) : Client :=
  { interval_time := interval_time, max_retry := max_retry,
    last_fetch_time := now }

/-- Outcome of one `Client::_get` call: the seconds slept before issuing the
request, the result, and the post-state of the client. -/
structure GetStep where
  slept : Nat
  result : Except String String
  client : Client
deriving Repr

/-- Embeds `Client::_get` (main.rs lines 170-187).  `now` is the instant at
entry; `resp` is the outcome of the single `reqwest::get` (`.error` covers
both transport errors and non-OK status, which the source turns into `Err`
before updating `last_fetch_time`).  On success `last_fetch_time` becomes
the instant after the sleep (the request itself is instantaneous in this
model). -/
def Client.oneGet (c : Client) (now : Nat) (resp : Except String String) :
    GetStep :=
  let duration := now - c.last_fetch_time
  let slept := if duration < c.interval_time then c.interval_time else 0
  match resp with
  | .error e => { slept := slept, result := .error e, client := c }
  | .ok body =>
    { slept := slept, result := .ok body,
      client := { c with last_fetch_time := now + slept } }

/-- Embeds the retry loop of `Client::get` (main.rs lines 189-202), keeping
the attempt counter explicit.  `transport i` is the outcome of attempt `i`
(0-based); `remaining` iterations of the `for _ in 0..max_retry` loop are
left and `done` attempts have been made.  Returns the final result, with
the exhaustion error carrying the url and `maxRetry` as in
`anyhow!("Error {} times when fetching {}", self.max_retry, url)`, paired
with the total number of attempts made. -/
def getLoop (transport : Nat → Except String String) (url : String)
    (maxRetry : Nat) : Nat → Nat → Except (Nat × String) String × Nat
  | 0, done => (.error (maxRetry, url), done)
  | remaining + 1, done =>
    match transport done with
    | .ok body => (.ok body, done + 1)
    | .error _ => getLoop transport url maxRetry remaining (done + 1)

/-- Embeds `Client::get` (main.rs lines 189-202): run the loop for
`max_retry` iterations starting from zero attempts made. -/
def Client.get (c : Client) (url : String)
    (transport : Nat → Except String String) :
    Except (Nat × String) String × Nat :=
  getLoop transport url c.max_retry c.max_retry 0

/-- Embeds the suffix loop of `fetch_and_save` (main.rs lines 205-226).
`ok url` tells whether downloading `url` (and writing the file) succeeds;
the first failing suffix aborts the record via `?`, reporting the failing
url. -/
def fetchAndSaveLoop (ok : String → Bool) (rec : OneKpRecord) :
    List String → Except String Unit
  | [] => .ok ()
  | f :: rest =>
    if ok (rec.to_gigadb_url f) then fetchAndSaveLoop ok rec rest
    else .error (rec.to_gigadb_url f)

/-- Embeds `fetch_and_save` (main.rs lines 205-226) for one record: iterate
over `sequence_type.to_filenames()`. -/
def fetch_and_save (ok : String → Bool) (rec : OneKpRecord)
    (sequence_type : SequenceType) : Except String Unit :=
  fetchAndSaveLoop ok rec sequence_type.to_filenames

/-- Embeds the `Commands::Fetch` arm of `main` (main.rs lines 334-359): the
sequential loop over the filtered records, pushing each record's id onto
`success_ids` or `err_ids` according to `fetch_and_save`'s outcome, never
aborting on failure. -/
def fetchRun (ok : String → Bool) (sequence_type : SequenceType)
    (recs : List OneKpRecord) : List String × List String :=
  recs.foldl
    (fun acc rec =>
      match fetch_and_save ok rec sequence_type with
      | .ok _ => (acc.1 ++ [rec.id], acc.2)
      | .error _ => (acc.1, acc.2 ++ [rec.id]))
    ([], [])

/-- Embeds `is_cache_update_required` (main.rs lines 258-261).  The cache
file is `none` when absent (then `metadata(path)` fails) and
`some mtime` otherwise; `SystemTime::now().duration_since(modified)` fails
when `mtime` is in the future, and otherwise the entry needs updating when
the age is at least 3600 seconds. -/
def is_cache_update_required (now : Nat) (file : Option (Nat × String)) :
    Except Unit Bool :=
  match file with
  | none => .error ()
  | some (mtime, _) =>
    if now < mtime then .error ()
    else .ok (decide (3600 ≤ now - mtime))

/-- Result of one `use_cache` call: the returned body, the cache file after
the call, and how many network fetches were performed. -/
structure CacheStep where
  body : String
  file : Option (Nat × String)
  netCalls : Nat
deriving DecidableEq, Repr

/-- Embeds `use_cache` (main.rs lines 263-299).  `file` is the cache file
for this url (modification time and contents); `network` is the outcome of
`client.get(url)` followed by `.text()`.  When the freshness check says the
cache is usable the file is read and returned with no network call;
otherwise (stale file, absent file, or clock error) the body is fetched
once and the file overwritten with it, stamped `now`.  Directory creation
(lines 264-271) touches no state modelled here. -/
def use_cache (now : Nat) (file : Option (Nat × String))
    (network : Except String String) : Except String CacheStep :=
  match is_cache_update_required now file with
  | .ok false =>
    match file with
    | some (_, contents) => .ok { body := contents, file := file, netCalls := 0 }
    | none => .error "unreachable: fresh cache file absent"
  | _ =>
    match network with
    | .error e => .error e
    | .ok text => .ok { body := text, file := some (now, text), netCalls := 1 }

/-!
Helper lemmas shared by the claim theorems.
-/

/-- Unrolled form of the padding loop: it right-pads with `"No data"` up to
length 6 (and is the identity on rows already long enough). -/
theorem padFields_eq (attrs : List String) :
    padFields attrs = attrs ++ List.replicate (6 - attrs.length) "No data" := by
  by_cases h : attrs.length < 6
  · rw [padFields, if_pos h, padFields_eq (attrs ++ ["No data"])]
    have h6 : 6 - attrs.length = (6 - (attrs ++ ["No data"]).length) + 1 := by
      simp; omega
    rw [h6, List.replicate_succ]
    simp
  · rw [padFields, if_neg h]
    have h0 : 6 - attrs.length = 0 := by omega
    simp [h0]
termination_by 6 - attrs.length
decreasing_by simp; omega

/-- The first element satisfying a predicate is the head of the filtered
list. -/
theorem find?_eq_head?_filter {α : Type} (p : α → Bool) (l : List α) :
    l.find? p = (l.filter p).head? := by
  induction l with
  | nil => rfl
  | cons a l ih =>
    cases h : p a
    · rw [List.find?_cons_of_neg, List.filter_cons_of_neg, ih] <;> simp [h]
    · rw [List.find?_cons_of_pos, List.filter_cons_of_pos, List.head?_cons] <;> simp [h]

/-- Retry loop, success case: with `k` of the `remaining` iterations left to
fail and attempt `done + k` succeeding, the loop stops right after that
attempt with the successful body. -/
theorem getLoop_succeeds (transport : Nat → Except String String)
    (url : String) (maxRetry : Nat) (body : String)
    (remaining done k : Nat) (hk : k < remaining)
    (hfail : ∀ j, j < k → ∃ e, transport (done + j) = Except.error e)
    (hok : transport (done + k) = Except.ok body) :
    getLoop transport url maxRetry remaining done = (Except.ok body, done + k + 1) := by
  induction remaining generalizing done k with
  | zero => omega
  | succ n ih =>
    cases k with
    | zero =>
      simp only [Nat.add_zero] at hok
      simp [getLoop, hok]
    | succ k =>
      obtain ⟨e, he⟩ := hfail 0 (Nat.succ_pos k)
      simp only [Nat.add_zero] at he
      simp only [getLoop, he]
      rw [show done + (k + 1) + 1 = (done + 1) + k + 1 by omega]
      exact ih (done + 1) k (by omega)
        (fun j hj => by
          have hx := hfail (j + 1) (by omega)
          rwa [show done + (j + 1) = done + 1 + j by omega] at hx)
        (by rwa [show done + (k + 1) = done + 1 + k by omega] at hok)

/-- Retry loop, exhaustion case: when every remaining attempt fails, the
loop runs them all and reports the exhaustion error. -/
theorem getLoop_all_fail (transport : Nat → Except String String)
    (url : String) (maxRetry : Nat) (remaining done : Nat)
    (hfail : ∀ j, j < remaining → ∃ e, transport (done + j) = Except.error e) :
    getLoop transport url maxRetry remaining done =
      (Except.error (maxRetry, url), done + remaining) := by
  induction remaining generalizing done with
  | zero => simp [getLoop]
  | succ n ih =>
    obtain ⟨e, he⟩ := hfail 0 (Nat.succ_pos n)
    simp only [Nat.add_zero] at he
    simp only [getLoop, he]
    rw [show done + (n + 1) = (done + 1) + n by omega]
    exact ih (done + 1) (fun j hj => by
      have hx := hfail (j + 1) (by omega)
      rwa [show done + (j + 1) = done + 1 + j by omega] at hx)

/-- The suffix loop of `fetch_and_save` succeeds exactly when every suffix
download succeeds. -/
theorem fetchAndSaveLoop_ok_iff (ok : String → Bool) (r : OneKpRecord)
    (fs : List String) :
    fetchAndSaveLoop ok r fs = Except.ok () ↔
      ∀ f ∈ fs, ok (r.to_gigadb_url f) = true := by
  induction fs with
  | nil => simp [fetchAndSaveLoop]
  | cons f fs ih =>
    by_cases h : ok (r.to_gigadb_url f) <;> simp [fetchAndSaveLoop, h, ih]

/-- Boolean success flag of `fetch_and_save` for one record. -/
def fetchOk (ok : String → Bool) (st : SequenceType) (r : OneKpRecord) : Bool :=
  match fetch_and_save ok r st with
  | .ok _ => true
  | .error _ => false

/-- A record counts as succeeded exactly when all its suffix downloads
succeed. -/
theorem fetchOk_true_iff (ok : String → Bool) (st : SequenceType)
    (r : OneKpRecord) :
    fetchOk ok st r = true ↔
      ∀ f ∈ st.to_filenames, ok (r.to_gigadb_url f) = true := by
  unfold fetchOk fetch_and_save
  cases hres : fetchAndSaveLoop ok r st.to_filenames with
  | ok u =>
    cases u
    simpa [hres] using (fetchAndSaveLoop_ok_iff ok r st.to_filenames).mp hres
  | error e =>
    simp only [hres]
    constructor
    · intro h; cases h
    · intro hall
      have := (fetchAndSaveLoop_ok_iff ok r st.to_filenames).mpr hall
      rw [hres] at this
      cases this

/-- Characterization of the fetch loop of `main`: starting from accumulators
`(s, e)`, it appends the ids of the succeeding records to `s` and the ids of
the failing records to `e`, in store order. -/
theorem fetchRun_go (ok : String → Bool) (st : SequenceType)
    (recs : List OneKpRecord) (s e : List String) :
    recs.foldl
      (fun acc rec2 =>
        match fetch_and_save ok rec2 st with
        | .ok _ => (acc.1 ++ [rec2.id], acc.2)
        | .error _ => (acc.1, acc.2 ++ [rec2.id])) (s, e) =
      (s ++ (recs.filter (fetchOk ok st)).map OneKpRecord.id,
       e ++ (recs.filter (fun r => ! fetchOk ok st r)).map OneKpRecord.id) := by
  induction recs generalizing s e with
  | nil => simp
  | cons r rs ih =>
    simp only [List.foldl_cons, List.filter_cons]
    cases hres : fetch_and_save ok r st with
    | ok u =>
      cases u
      have hT : fetchOk ok st r = true := by simp [fetchOk, hres]
      simp [hres, hT, ih]
    | error msg =>
      have hF : fetchOk ok st r = false := by simp [fetchOk, hres]
      simp [hres, hF, ih]

/-- The two id lists produced by a fetch run are the ids of the succeeding
records and the ids of the failing records, each in store order. -/
theorem fetchRun_eq (ok : String → Bool) (st : SequenceType)
    (recs : List OneKpRecord) :
    fetchRun ok st recs =
      ((recs.filter (fetchOk ok st)).map OneKpRecord.id,
       (recs.filter (fun r => ! fetchOk ok st r)).map OneKpRecord.id) := by
  have h := fetchRun_go ok st recs [] []
  simpa [fetchRun] using h

/-!
Claim theorems.
-/

/-- C3: for every field list of at least 6 strings whose identifier (field
0) has at least one directory-listing entry starting with it — equivalently,
whose first match `find?` is `some p` — `push_record` succeeds and appends
exactly one record whose prefix `p` is the first such listing entry (a
matching entry and the head of the filtered listing) and whose six fields
equal the input fields verbatim; in a store whose existing records all have
identifiers different from field 0, filtering by that identifier afterwards
returns exactly that one record. -/
theorem c3_push_record_appends (o : OneKp) (a0 a1 a2 a3 a4 a5 : String)
    (rest : List String) (p : String)
    (hfind : o.links.find? (fun l => strStartsWith l a0) = some p)
    (huniq : ∀ r ∈ o.records, r.id ≠ a0) :
    (o.push_record (a0 :: a1 :: a2 :: a3 :: a4 :: a5 :: rest)).2 = Except.ok () ∧
    (o.push_record (a0 :: a1 :: a2 :: a3 :: a4 :: a5 :: rest)).1.records =
      o.records ++ [{ id := a0, clade := a1, order := a2, family := a3,
                      species := a4, tissue_type := a5, pfx := p }] ∧
    strStartsWith p a0 = true ∧
    (o.links.filter (fun l => strStartsWith l a0)).head? = some p ∧
    OneKp.filter (o.push_record (a0 :: a1 :: a2 :: a3 :: a4 :: a5 :: rest)).1
        OneKpKey.id [a0] =
      [{ id := a0, clade := a1, order := a2, family := a3,
         species := a4, tissue_type := a5, pfx := p }] := by
  refine ⟨?_, ?_, ?_, ?_, ?_⟩
  · simp [OneKp.push_record, hfind]
  · simp [OneKp.push_record, hfind]
  · have hp := List.find?_some hfind
    simpa using hp
  · rw [← find?_eq_head?_filter]; exact hfind
  · simp only [OneKp.push_record, hfind, OneKp.filter]
    rw [List.filter_append]
    have hnil : o.records.filter (fun r => [a0].contains r.id) = [] := by
      rw [List.filter_eq_nil_iff]
      intro r hr
      simp [huniq r hr]
    rw [hnil]
    simp

/-- Witness for C3 at a concrete store and row. -/
theorem c3_push_record_appends_witness :
    ((OneKp.new ["AAAA_dir/"]).push_record
      ["AAAA", "CladeA", "OrderA", "FamA", "SpA", "TisA"]).2 = Except.ok () :=
  (c3_push_record_appends (OneKp.new ["AAAA_dir/"]) "AAAA" "CladeA" "OrderA"
    "FamA" "SpA" "TisA" [] "AAAA_dir" (by decide) (by decide)).1

/-- C4: for every store and every field list (of at least 6 strings) whose
identifier has no directory-listing entry starting with it, `push_record`
fails with the prefix-not-found error naming that id, and the store — in
particular its record sequence and count — is unchanged. -/
theorem c4_prefix_not_found (o : OneKp) (a0 a1 a2 a3 a4 a5 : String)
    (rest : List String)
    (hfind : o.links.find? (fun l => strStartsWith l a0) = none) :
    (o.push_record (a0 :: a1 :: a2 :: a3 :: a4 :: a5 :: rest)).2 =
      Except.error (a0 ++ " dirname is not found") ∧
    (o.push_record (a0 :: a1 :: a2 :: a3 :: a4 :: a5 :: rest)).1 = o ∧
    (o.push_record (a0 :: a1 :: a2 :: a3 :: a4 :: a5 :: rest)).1.records.length =
      o.records.length := by
  refine ⟨?_, ?_, ?_⟩ <;> simp [OneKp.push_record, hfind]

/-- Witness for C4 at a concrete store whose listing has no matching entry. -/
theorem c4_prefix_not_found_witness :
    (({ links := ["BBB_dir"], records := [] } : OneKp).push_record
      ["AAAA", "c", "o", "f", "s", "t"]).2 =
      Except.error ("AAAA" ++ " dirname is not found") :=
  (c4_prefix_not_found { links := ["BBB_dir"], records := [] } "AAAA" "c" "o"
    "f" "s" "t" [] (by decide)).1

/-- C5: whenever the elapsed whole seconds since the client's recorded
last-fetch instant are less than the configured interval, `_get` sleeps for
the full configured interval before issuing the request; when the elapsed
time is at least the interval, it does not sleep. -/
theorem c5_rate_limit_sleep (c : Client) (now : Nat)
    (resp : Except String String) :
    (now - c.last_fetch_time < c.interval_time →
      (c.oneGet now resp).slept = c.interval_time) ∧
    (c.interval_time ≤ now - c.last_fetch_time →
      (c.oneGet now resp).slept = 0) := by
  constructor
  · intro h
    cases resp <;> simp [Client.oneGet, h]
  · intro h
    cases resp <;> simp [Client.oneGet, Nat.not_lt_of_le h]

/-- Witness for C5: one second after the last fetch with a 3-second
interval, the client sleeps the full 3 seconds. -/
theorem c5_rate_limit_sleep_witness :
    (({ interval_time := 3, max_retry := 5, last_fetch_time := 100 } : Client).oneGet
      101 (Except.ok "body")).slept = 3 :=
  (c5_rate_limit_sleep
    { interval_time := 3, max_retry := 5, last_fetch_time := 100 } 101
    (Except.ok "body")).1 (by decide)

/-- C7: for every store, field key and value list, `filter` returns exactly
the records whose selected field's value is a member of the values (exact,
case-sensitive string equality), in store order (a sublist of the store),
and returns the empty sequence when the values are disjoint from all stored
field values. -/
theorem c7_filter_exact (o : OneKp) (key : OneKpKey) (values : List String) :
    o.filter key values =
      o.records.filter (fun r => values.contains (key.field r)) ∧
    List.Sublist (o.filter key values) o.records ∧
    (∀ r, r ∈ o.filter key values ↔ r ∈ o.records ∧ key.field r ∈ values) ∧
    ((∀ r ∈ o.records, key.field r ∉ values) → o.filter key values = []) := by
  have hbase : o.filter key values =
      o.records.filter (fun r => values.contains (key.field r)) := by
    cases key <;> rfl
  refine ⟨hbase, ?_, ?_, ?_⟩
  · rw [hbase]; exact List.filter_sublist o.records
  · intro r
    rw [hbase]
    simp [List.mem_filter]
  · intro hdisj
    rw [hbase, List.filter_eq_nil_iff]
    intro r hr
    simp [hdisj r hr]

/-- Witness for C7: filtering a one-record store by a disjoint value set
yields the empty list. -/
theorem c7_filter_exact_witness :
    OneKp.filter
      { links := [],
        records := [{ id := "A", clade := "c", order := "o", family := "f",
                      species := "s", tissue_type := "t", pfx := "Ad" }] }
      OneKpKey.id ["zzz"] = [] :=
  (c7_filter_exact
    { links := [],
      records := [{ id := "A", clade := "c", order := "o", family := "f",
                    species := "s", tissue_type := "t", pfx := "Ad" }] }
    OneKpKey.id ["zzz"]).2.2.2 (by decide)

/-- C8: every metadata row with fewer than 6 tab-separated fields is
right-padded with the placeholder "No data" to exactly 6 fields before the
record is inserted; a row with only 2 fields (with a matching listing
entry) yields a record whose tissue-type field equals "No data". -/
theorem c8_pad_no_data (attrs : List String) (o : OneKp) (a0 a1 p : String)
    (hlen : attrs.length < 6)
    (hfind : o.links.find? (fun l => strStartsWith l a0) = some p) :
    padFields attrs = attrs ++ List.replicate (6 - attrs.length) "No data" ∧
    (padFields attrs).length = 6 ∧
    (o.push_record (padFields [a0, a1])).2 = Except.ok () ∧
    (o.push_record (padFields [a0, a1])).1.records =
      o.records ++ [{ id := a0, clade := a1, order := "No data",
                      family := "No data", species := "No data",
                      tissue_type := "No data", pfx := p }] := by
  have hpad : padFields [a0, a1] =
      [a0, a1, "No data", "No data", "No data", "No data"] := by
    rw [padFields_eq]; rfl
  refine ⟨padFields_eq attrs, ?_, ?_, ?_⟩
  · rw [padFields_eq]; simp; omega
  · rw [hpad]; simp [OneKp.push_record, hfind]
  · rw [hpad]; simp [OneKp.push_record, hfind]

/-- Witness for C8 at a concrete 2-field row. -/
theorem c8_pad_no_data_witness :
    ((OneKp.new ["AA_dir/"]).push_record (padFields ["AA", "CladeX"])).1.records =
      [] ++ [{ id := "AA", clade := "CladeX", order := "No data",
               family := "No data", species := "No data",
               tissue_type := "No data", pfx := "AA_dir" }] :=
  (c8_pad_no_data ["AA", "CladeX"] (OneKp.new ["AA_dir/"]) "AA" "CladeX"
    "AA_dir" (by decide) (by decide)).2.2.2

/-- C9: for every record and every suffix selected by the `both` sequence
type (so any suffix the program ever uses), the suffix is one of
"nucleotides.fa.gz" / "protein.fa.gz", the remote URL is exactly
base ++ prefix ++ "/" ++ id ++ "-translated-" ++ suffix and the local file
name is exactly prefix ++ "-" ++ suffix; in particular the end-to-end
instance with listing entry "ID1_dir/" and id "ID1" yields the URL path
".../ID1_dir/ID1-translated-nucleotides.fa.gz" and the file name
"ID1_dir-nucleotides.fa.gz". -/
theorem c9_url_filename (r : OneKpRecord) (s : String)
    (hs : s ∈ SequenceType.both.to_filenames) :
    (s = "nucleotides.fa.gz" ∨ s = "protein.fa.gz") ∧
    r.to_gigadb_url s = gigadbBase ++ r.pfx ++ "/" ++ r.id ++ "-translated-" ++ s ∧
    r.to_filename s = r.pfx ++ "-" ++ s ∧
    ((OneKp.new ["ID1_dir/"]).push_record
        ["ID1", "CladeA", "OrderA", "FamA", "SpA", "TisA"]).1.records =
      [{ id := "ID1", clade := "CladeA", order := "OrderA", family := "FamA",
         species := "SpA", tissue_type := "TisA", pfx := "ID1_dir" }] ∧
    ({ id := "ID1", clade := "CladeA", order := "OrderA", family := "FamA",
       species := "SpA", tissue_type := "TisA",
       pfx := "ID1_dir" } : OneKpRecord).to_gigadb_url "nucleotides.fa.gz" =
      "https://ftp.cngb.org/pub/gigadb/pub/10.5524/100001_101000/100627/assemblies/ID1_dir/ID1-translated-nucleotides.fa.gz" ∧
    ({ id := "ID1", clade := "CladeA", order := "OrderA", family := "FamA",
       species := "SpA", tissue_type := "TisA",
       pfx := "ID1_dir" } : OneKpRecord).to_filename "nucleotides.fa.gz" =
      "ID1_dir-nucleotides.fa.gz" := by
  refine ⟨?_, rfl, rfl, by decide, by decide, by decide⟩
  simpa [SequenceType.to_filenames] using hs

/-- Witness for C9 at a concrete record and the protein suffix. -/
theorem c9_url_filename_witness :
    ({ id := "A", clade := "c", order := "o", family := "f", species := "s",
       tissue_type := "t", pfx := "Ad" } : OneKpRecord).to_gigadb_url
        "protein.fa.gz" =
      gigadbBase ++ "Ad" ++ "/" ++ "A" ++ "-translated-" ++ "protein.fa.gz" :=
  (c9_url_filename
    { id := "A", clade := "c", order := "o", family := "f", species := "s",
      tissue_type := "t", pfx := "Ad" } "protein.fa.gz" (by decide)).2.1

/-- C10: client construction initializes the last-fetch instant to the
construction instant even though no fetch has occurred, so for a first
request issued less than the configured interval after construction the
client sleeps the full interval before issuing it. -/
theorem c10_first_get_sleep (i m t0 t1 : Nat) (resp : Except String String)
    (h : t1 - t0 < i) :
    (Client.new i m t0).last_fetch_time = t0 ∧
    ((Client.new i m t0).oneGet t1 resp).slept = i := by
  refine ⟨rfl, ?_⟩
  cases resp <;> simp [Client.new, Client.oneGet, h]

/-- Witness for C10: a client built at instant 100 with interval 3, asked
at instant 101, sleeps the full 3 seconds. -/
theorem c10_first_get_sleep_witness :
    ((Client.new 3 5 100).oneGet 101 (Except.ok "b")).slept = 3 :=
  (c10_first_get_sleep 3 5 100 101 (Except.ok "b") (by decide)).2

/-- C2: for a client configured with max-retry N (N positive), if the
transport fails on the first N−1 attempts and succeeds on the N-th, `get`
returns the successful body after exactly N attempts; if all N attempts
fail, `get` makes exactly N attempts and fails with the exhaustion error
carrying the attempt count and the URL. -/
theorem c2_retry_behavior (N : Nat) (url : String)
    (transport : Nat → Except String String) (c : Client) (body : String)
    (hN : 0 < N) (hc : c.max_retry = N) :
    ((∀ i, i < N - 1 → ∃ e, transport i = Except.error e) →
      transport (N - 1) = Except.ok body →
      c.get url transport = (Except.ok body, N)) ∧
    ((∀ i, i < N → ∃ e, transport i = Except.error e) →
      c.get url transport = (Except.error (N, url), N)) := by
  constructor
  · intro hfail hok
    unfold Client.get
    rw [hc]
    have h := getLoop_succeeds transport url N body N 0 (N - 1) (by omega)
      (fun j hj => by simpa using hfail j (by omega))
      (by simpa using hok)
    rw [h]
    congr 1
    omega
  · intro hfail
    unfold Client.get
    rw [hc]
    have h := getLoop_all_fail transport url N N 0
      (fun j hj => by simpa using hfail j (by omega))
    rw [h]
    simp

/-- Witness for C2: with max-retry 2, one failure then a success yields the
body after exactly 2 attempts. -/
theorem c2_retry_behavior_witness :
    Client.get { interval_time := 3, max_retry := 2, last_fetch_time := 0 }
      "u" (fun i => if i = 0 then Except.error "boom" else Except.ok "b") =
      (Except.ok "b", 2) :=
  (c2_retry_behavior 2 "u"
    (fun i => if i = 0 then Except.error "boom" else Except.ok "b")
    { interval_time := 3, max_retry := 2, last_fetch_time := 0 } "b"
    (by decide) rfl).1
    (fun i hi => ⟨"boom", by
      have h0 : i = 0 := by omega
      simp [h0]⟩)
    (by simp)

/-- C1 counterexample: at age exactly 3600 seconds the age has not yet
exceeded the 1-hour threshold, yet `use_cache` refetches: it performs one
network call and returns the fresh body, not the cached contents with no
network call. -/
theorem c1_staleness_counterexample :
    use_cache 3600 (some (0, "old")) (Except.ok "fresh") =
      Except.ok { body := "fresh", file := some (3600, "fresh"), netCalls := 1 } ∧
    use_cache 3600 (some (0, "old")) (Except.ok "fresh") ≠
      Except.ok { body := "old", file := some (0, "old"), netCalls := 0 } := by
  constructor
  · rfl
  · intro h
    rw [show use_cache 3600 (some (0, "old")) (Except.ok "fresh") =
      Except.ok { body := "fresh", file := some (3600, "fresh"), netCalls := 1 }
      from rfl] at h
    simp at h

/-- C1 (amended): for a cache file written at `mtime ≤ now`, if its age
`now - mtime` is STRICTLY below 3600 seconds `use_cache` returns the file's
contents with no network call and the file untouched; if its age is at
least 3600 seconds, or the file is absent, `use_cache` invokes the network
layer exactly once, overwrites the cache file with the fresh body stamped
`now`, and returns that body. -/
theorem c1_cache_behavior (now mtime : Nat) (contents fresh : String)
    (hm : mtime ≤ now) :
    (now - mtime < 3600 →
      use_cache now (some (mtime, contents)) (Except.ok fresh) =
        Except.ok { body := contents, file := some (mtime, contents),
                    netCalls := 0 }) ∧
    (3600 ≤ now - mtime →
      use_cache now (some (mtime, contents)) (Except.ok fresh) =
        Except.ok { body := fresh, file := some (now, fresh),
                    netCalls := 1 }) ∧
    use_cache now none (Except.ok fresh) =
      Except.ok { body := fresh, file := some (now, fresh), netCalls := 1 } := by
  have hreq : is_cache_update_required now (some (mtime, contents)) =
      Except.ok (decide (3600 ≤ now - mtime)) := by
    simp only [is_cache_update_required]
    rw [if_neg (Nat.not_lt.mpr hm)]
  refine ⟨?_, ?_, rfl⟩
  · intro h
    unfold use_cache
    rw [hreq, decide_eq_false (by omega)]
  · intro h
    unfold use_cache
    rw [hreq, decide_eq_true h]

/-- Witness for C1 (amended) at a fresh file and a stale file. -/
theorem c1_cache_behavior_witness :
    use_cache 100 (some (40, "cached")) (Except.ok "fresh") =
      Except.ok { body := "cached", file := some (40, "cached"),
                  netCalls := 0 } :=
  (c1_cache_behavior 100 40 "cached" "fresh" (by decide)).1 (by decide)

/-- C6: during a fetch run over records with pairwise distinct identifiers,
a failing suffix download marks that whole record failed (an id lands in
the failed list exactly when one of its suffix downloads fails) without
aborting the later records; every processed record's id lands in exactly
one of the two reported lists, the two lists are disjoint, and together
they cover exactly the processed ids. -/
theorem c6_fetch_outcomes (ok : String → Bool) (st : SequenceType)
    (recs : List OneKpRecord)
    (huniq : (recs.map OneKpRecord.id).Nodup) :
    (∀ r ∈ recs,
      (r.id ∈ (fetchRun ok st recs).1 ∧ r.id ∉ (fetchRun ok st recs).2) ∨
      (r.id ∈ (fetchRun ok st recs).2 ∧ r.id ∉ (fetchRun ok st recs).1)) ∧
    (∀ x, (x ∈ (fetchRun ok st recs).1 ∨ x ∈ (fetchRun ok st recs).2) ↔
      x ∈ recs.map OneKpRecord.id) ∧
    List.Disjoint (fetchRun ok st recs).1 (fetchRun ok st recs).2 ∧
    (∀ r ∈ recs,
      (r.id ∈ (fetchRun ok st recs).2 ↔
        ∃ f ∈ st.to_filenames, ok (r.to_gigadb_url f) = false)) := by
  rw [fetchRun_eq]
  have hperm : List.Perm
      ((recs.filter (fetchOk ok st)).map OneKpRecord.id ++
        (recs.filter (fun r => ! fetchOk ok st r)).map OneKpRecord.id)
      (recs.map OneKpRecord.id) := by
    rw [← List.map_append]
    exact (List.filter_append_perm (fetchOk ok st) recs).map OneKpRecord.id
  have hnd : ((recs.filter (fetchOk ok st)).map OneKpRecord.id ++
      (recs.filter (fun r => ! fetchOk ok st r)).map OneKpRecord.id).Nodup :=
    hperm.symm.nodup huniq
  have hdisj : List.Disjoint
      ((recs.filter (fetchOk ok st)).map OneKpRecord.id)
      ((recs.filter (fun r => ! fetchOk ok st r)).map OneKpRecord.id) :=
    List.disjoint_of_nodup_append hnd
  have hinj := List.inj_on_of_nodup_map huniq
  refine ⟨?_, ?_, hdisj, ?_⟩
  · intro r hr
    cases hf : fetchOk ok st r with
    | true =>
      left
      have hmem : r.id ∈ (recs.filter (fetchOk ok st)).map OneKpRecord.id :=
        List.mem_map_of_mem _ (List.mem_filter.mpr ⟨hr, hf⟩)
      exact ⟨hmem, fun hcon => hdisj hmem hcon⟩
    | false =>
      right
      have hmem : r.id ∈ (recs.filter (fun r => ! fetchOk ok st r)).map
          OneKpRecord.id :=
        List.mem_map_of_mem _ (List.mem_filter.mpr ⟨hr, by simp [hf]⟩)
      exact ⟨hmem, fun hcon => hdisj hcon hmem⟩
  · intro x
    rw [← hperm.mem_iff]
    simp [List.mem_append]
  · intro r hr
    constructor
    · intro hmem
      obtain ⟨r2, hr2, hid⟩ := List.mem_map.mp hmem
      have hr2rec := (List.mem_filter.mp hr2).1
      have hr2fail : fetchOk ok st r2 = false := by
        have := (List.mem_filter.mp hr2).2
        simpa using this
      have hrr : r2 = r := hinj hr2rec hr hid
      rw [hrr] at hr2fail
      have hnot : ¬ ∀ f ∈ st.to_filenames, ok (r.to_gigadb_url f) = true := by
        intro hall
        rw [(fetchOk_true_iff ok st r).mpr hall] at hr2fail
        cases hr2fail
      push_neg at hnot
      obtain ⟨f, hf, hfval⟩ := hnot
      exact ⟨f, hf, by simpa using hfval⟩
    · intro ⟨f, hf, hfval⟩
      have hfail : fetchOk ok st r = false := by
        cases hok2 : fetchOk ok st r with
        | false => rfl
        | true =>
          have := (fetchOk_true_iff ok st r).mp hok2 f hf
          rw [this] at hfval
          cases hfval
      exact List.mem_map_of_mem _ (List.mem_filter.mpr ⟨hr, by simp [hfail]⟩)

/-- Witness for C6: a one-record run with a transport that always fails
places the record's id in one of the two lists. -/
theorem c6_fetch_outcomes_witness :
    "A1" ∈ (fetchRun (fun _ => false) SequenceType.both
      [{ id := "A1", clade := "c", order := "o", family := "f",
         species := "s", tissue_type := "t", pfx := "A1d" }]).1 ∨
    "A1" ∈ (fetchRun (fun _ => false) SequenceType.both
      [{ id := "A1", clade := "c", order := "o", family := "f",
         species := "s", tissue_type := "t", pfx := "A1d" }]).2 := by
  have h := (c6_fetch_outcomes (fun _ => false) SequenceType.both
    [{ id := "A1", clade := "c", order := "o", family := "f",
       species := "s", tissue_type := "t", pfx := "A1d" }] (by decide)).1
    { id := "A1", clade := "c", order := "o", family := "f",
      species := "s", tissue_type := "t", pfx := "A1d" } (by simp)
  rcases h with h | h
  · exact Or.inl h.1
  · exact Or.inr h.1
